import Mathlib

/-!
Verification of kurbo's `TranslateScale` module (`src/translate_scale.rs`).

The Rust code works on `f64`; the embedding models the scalars as exact
rationals (`ℚ`), so every arithmetic identity of the source is stated
exactly, and every "within 1e-9" tolerance claim is discharged from exact
equality.  `f64::recip` is total (it never panics; `recip 0.0` is `inf`);
its rational counterpart here is `Rat` inversion, likewise total (with
`(0 : ℚ)⁻¹ = 0`).
-/

namespace Kurbo

/-- 2D vector primitive (external collaborator of the module; only its
componentwise arithmetic is used). -/
structure Vec2 where
  x : ℚ
  y : ℚ
deriving DecidableEq, Repr

/-- 2D point primitive (external collaborator of the module). -/
structure Point where
  x : ℚ
  y : ℚ
deriving DecidableEq, Repr

def Vec2.ZERO : Vec2 := ⟨0, 0⟩

instance : Add Vec2 := ⟨fun a b => ⟨a.x + b.x, a.y + b.y⟩⟩

instance : Sub Vec2 := ⟨fun a b => ⟨a.x - b.x, a.y - b.y⟩⟩

instance : HMul ℚ Vec2 Vec2 := ⟨fun k v => ⟨k * v.x, k * v.y⟩⟩

instance : HMul Vec2 ℚ Vec2 := ⟨fun v k => ⟨v.x * k, v.y * k⟩⟩

instance : HAdd Point Vec2 Point := ⟨fun p v => ⟨p.x + v.x, p.y + v.y⟩⟩

def Point.to_vec2 (p : Point) : Vec2 := ⟨p.x, p.y⟩

def Vec2.to_point (v : Vec2) : Point := ⟨v.x, v.y⟩

@[simp] theorem Vec2.add_x (a b : Vec2) : (a + b).x = a.x + b.x := rfl

@[simp] theorem Vec2.add_y (a b : Vec2) : (a + b).y = a.y + b.y := rfl

@[simp] theorem Vec2.sub_x (a b : Vec2) : (a - b).x = a.x - b.x := rfl

@[simp] theorem Vec2.sub_y (a b : Vec2) : (a - b).y = a.y - b.y := rfl

@[simp] theorem Vec2.smul_x (k : ℚ) (v : Vec2) : (k * v).x = k * v.x := rfl

@[simp] theorem Vec2.smul_y (k : ℚ) (v : Vec2) : (k * v).y = k * v.y := rfl

@[simp] theorem Vec2.mulk_x (v : Vec2) (k : ℚ) : (v * k).x = v.x * k := rfl

@[simp] theorem Vec2.mulk_y (v : Vec2) (k : ℚ) : (v * k).y = v.y * k := rfl

@[simp] theorem Point.addv_x (p : Point) (v : Vec2) : (p + v).x = p.x + v.x := rfl

@[simp] theorem Point.addv_y (p : Point) (v : Vec2) : (p + v).y = p.y + v.y := rfl

/-- `TranslateScale`: a transformation including scaling and translation
(the augmented matrix `[s 0 x; 0 s y; 0 0 1]`). -/
structure TranslateScale where
  translation : Vec2
  scale : ℚ
deriving DecidableEq, Repr

/-- `TranslateScale::new`. -/
def TranslateScale.new (translation : Vec2) (scale : ℚ) : TranslateScale :=
  ⟨translation, scale⟩

/-- `TranslateScale::scale` (scale-only constructor). -/
def TranslateScale.scale_only (s : ℚ) : TranslateScale :=
  TranslateScale.new Vec2.ZERO s

/-- `TranslateScale::translate` (translation-only constructor). -/
def TranslateScale.translate (t : Vec2) : TranslateScale :=
  TranslateScale.new t 1

/-- `TranslateScale::as_tuple`. -/
def TranslateScale.as_tuple (self : TranslateScale) : Vec2 × ℚ :=
  (self.translation, self.scale)

/-- `TranslateScale::inverse`.  The Rust body is
`let scale_recip = self.scale.recip();
 TranslateScale { translation: self.translation * -scale_recip, scale: scale_recip }`.
`f64::recip` is a total function (no panic path exists in the body); its
rational counterpart `(·)⁻¹` is likewise total. -/
def TranslateScale.inverse (self : TranslateScale) : TranslateScale :=
  let scale_recip := self.scale⁻¹
  { translation := self.translation * (-scale_recip), scale := scale_recip }

/-- `Default for TranslateScale`: `TranslateScale::scale(1.0)`. -/
def TranslateScale.default : TranslateScale :=
  TranslateScale.scale_only 1

/-- General affine matrix, external collaborator; the module only uses its
six-scalar constructor. -/
structure Affine where
  c0 : ℚ
  c1 : ℚ
  c2 : ℚ
  c3 : ℚ
  c4 : ℚ
  c5 : ℚ
deriving DecidableEq, Repr

/-- `Affine::new([c0, c1, c2, c3, c4, c5])`. -/
def Affine.new (c0 c1 c2 c3 c4 c5 : ℚ) : Affine :=
  ⟨c0, c1, c2, c3, c4, c5⟩

/-- `From<TranslateScale> for Affine`:
`Affine::new([scale, 0.0, 0.0, scale, translation.x, translation.y])`. -/
def TranslateScale.toAffine (ts : TranslateScale) : Affine :=
  Affine.new ts.scale 0 0 ts.scale ts.translation.x ts.translation.y

/-- Modelled from the spec: the `Affine` type's action on a point is not
among the sources (it is an external collaborator).  Per the spec the six
scalars `[a, b, c, d, e, f]` are column-major, linear part then
translation, so the point `(x, y)` maps to
`(a*x + c*y + e, b*x + d*y + f)`. -/
def Affine.mulPoint (m : Affine) (p : Point) : Point :=
  ⟨m.c0 * p.x + m.c2 * p.y + m.c4, m.c1 * p.x + m.c3 * p.y + m.c5⟩

/-- `Mul<Point> for TranslateScale`:
`(self.scale * other.to_vec2()).to_point() + self.translation`. -/
def TranslateScale.mulPoint (self : TranslateScale) (other : Point) : Point :=
  (self.scale * other.to_vec2).to_point + self.translation

/-- `Mul for TranslateScale` (composition): translation
`self.translation + self.scale * other.translation`, scale
`self.scale * other.scale`. -/
def TranslateScale.mul (self other : TranslateScale) : TranslateScale :=
  { translation := self.translation + self.scale * other.translation
    scale := self.scale * other.scale }

/-- `Mul<TranslateScale> for f64` (scalar on the left). -/
def TranslateScale.scalarMulLeft (k : ℚ) (other : TranslateScale) : TranslateScale :=
  { translation := other.translation * k, scale := other.scale * k }

/-- `Mul<f64> for TranslateScale` (scalar on the right). -/
def TranslateScale.mulScalar (self : TranslateScale) (other : ℚ) : TranslateScale :=
  { translation := self.translation, scale := self.scale * other }

/-- `Add<Vec2> for TranslateScale`. -/
def TranslateScale.addVec (self : TranslateScale) (other : Vec2) : TranslateScale :=
  { translation := self.translation + other, scale := self.scale }

/-- `Add<TranslateScale> for Vec2`: defined as `other + self`. -/
def Vec2.addTranslateScale (self : Vec2) (other : TranslateScale) : TranslateScale :=
  other.addVec self

/-- `Sub<Vec2> for TranslateScale`. -/
def TranslateScale.subVec (self : TranslateScale) (other : Vec2) : TranslateScale :=
  { translation := self.translation - other, scale := self.scale }

/-- Circle primitive, external collaborator; the spec only requires
"a circle constructible from center+radius". -/
structure Circle where
  center : Point
  radius : ℚ
deriving DecidableEq, Repr

/-- `Circle::new(center, radius)`. -/
def Circle.new (center : Point) (radius : ℚ) : Circle :=
  ⟨center, radius⟩

/-- `Mul<Circle> for TranslateScale`:
`Circle::new(self * other.center, self.scale * other.radius)`. -/
def TranslateScale.mulCircle (self : TranslateScale) (other : Circle) : Circle :=
  Circle.new (self.mulPoint other.center) (self.scale * other.radius)

/-- The 1e-9 tolerance the spec and the tests use. -/
def tol : ℚ := 1 / 1000000000

/-- Squared euclidean distance between two points. -/
def Point.distSq (p q : Point) : ℚ :=
  (p.x - q.x) ^ 2 + (p.y - q.y) ^ 2

/-- `p` and `q` are within absolute distance 1e-9 (stated on squares, so it
stays inside ℚ). -/
@[reducible] def nearPoint (p q : Point) : Prop :=
  Point.distSq p q < tol ^ 2

@[simp] theorem Vec2.to_point_x (v : Vec2) : v.to_point.x = v.x := rfl

@[simp] theorem Vec2.to_point_y (v : Vec2) : v.to_point.y = v.y := rfl

@[simp] theorem Point.to_vec2_x (p : Point) : p.to_vec2.x = p.x := rfl

@[simp] theorem Point.to_vec2_y (p : Point) : p.to_vec2.y = p.y := rfl

theorem Point.ext_xy (p q : Point) (hx : p.x = q.x) (hy : p.y = q.y) : p = q := by
  cases p; cases q; cases hx; cases hy; rfl

theorem Vec2.ext_comp (a b : Vec2) (hx : a.x = b.x) (hy : a.y = b.y) : a = b := by
  cases a; cases b; cases hx; cases hy; rfl

theorem TranslateScale.ext_ts (a b : TranslateScale)
    (ht : a.translation = b.translation) (hs : a.scale = b.scale) : a = b := by
  cases a; cases b; cases ht; cases hs; rfl

theorem nearPoint_of_eq (p q : Point) (h : p = q) : nearPoint p q := by
  subst h
  simp [nearPoint, Point.distSq, tol]

/-- Claim C1: converting a `TranslateScale` with translation `(tx, ty)` and
scale `s` to the general affine produces exactly the six coefficients
`[s, 0, 0, s, tx, ty]`, and for every translation, scale `s ≠ 0` and
point `p`, applying the transform directly to `p` agrees with applying the
derived affine matrix to `p` within 1e-9 absolute distance. -/
theorem C1_toAffine_consistent (tx ty s : ℚ) (p : Point) (hs : s ≠ 0) :
    (TranslateScale.new ⟨tx, ty⟩ s).toAffine = Affine.new s 0 0 s tx ty ∧
    nearPoint (((TranslateScale.new ⟨tx, ty⟩ s).toAffine).mulPoint p)
      ((TranslateScale.new ⟨tx, ty⟩ s).mulPoint p) := by
  refine ⟨rfl, nearPoint_of_eq _ _ ?_⟩
  apply Point.ext_xy <;>
    simp [TranslateScale.new, TranslateScale.toAffine, Affine.new, Affine.mulPoint,
      TranslateScale.mulPoint]

theorem C1_toAffine_consistent_witness :
    (2 : ℚ) ≠ 0 ∧
    nearPoint (((TranslateScale.new ⟨5, 6⟩ 2).toAffine).mulPoint ⟨3, 4⟩)
      ((TranslateScale.new ⟨5, 6⟩ 2).mulPoint ⟨3, 4⟩) :=
  ⟨by decide, (C1_toAffine_consistent 5 6 2 ⟨3, 4⟩ (by decide)).2⟩

/-- Claim C2 (code bug): the body of `inverse` is a total computation — at
scale `0` it does not abort but silently returns a degenerate transform.
In this rational model `(0 : ℚ)⁻¹ = 0`, so the result is the zero
transform; in Rust, `f64::recip(0.0)` is `+inf`, so the result has an
infinite scale — in both semantics no panic occurs, contradicting the doc
comment "Panics when scale is zero". -/
theorem C2_inverse_zero_no_panic :
    (TranslateScale.new ⟨5, 6⟩ 0).inverse = TranslateScale.new ⟨0, 0⟩ 0 := by
  apply TranslateScale.ext_ts
  · apply Vec2.ext_comp <;> simp [TranslateScale.inverse, TranslateScale.new]
  · simp [TranslateScale.inverse, TranslateScale.new]

/-- Claim C3: for every transform with nonzero scale `s`, `inverse` returns
`new(translation * -(1/s), 1/s)`, and both `(T * T.inverse) * p` and
`(T.inverse * T) * p` are within 1e-9 of `p`. -/
theorem C3_inverse_round_trip (t : Vec2) (s : ℚ) (p : Point) (hs : s ≠ 0) :
    (TranslateScale.new t s).inverse = TranslateScale.new (t * (-s⁻¹)) s⁻¹ ∧
    nearPoint
      (((TranslateScale.new t s).mul (TranslateScale.new t s).inverse).mulPoint p) p ∧
    nearPoint
      (((TranslateScale.new t s).inverse.mul (TranslateScale.new t s)).mulPoint p) p := by
  refine ⟨rfl, nearPoint_of_eq _ _ ?_, nearPoint_of_eq _ _ ?_⟩ <;>
    apply Point.ext_xy <;>
      · simp [TranslateScale.new, TranslateScale.inverse, TranslateScale.mul,
          TranslateScale.mulPoint]
        field_simp

theorem C3_inverse_round_trip_witness :
    (2 : ℚ) ≠ 0 ∧
    nearPoint
      (((TranslateScale.new ⟨5, 6⟩ 2).mul
        (TranslateScale.new ⟨5, 6⟩ 2).inverse).mulPoint ⟨3, 4⟩) ⟨3, 4⟩ :=
  ⟨by decide, (C3_inverse_round_trip ⟨5, 6⟩ 2 ⟨3, 4⟩ (by decide)).2.1⟩

/-- Claim C4: for all transforms `A` and `B`, the composition `A * B`
("apply B, then A") has translation exactly
`A.translation + A.scale * B.translation` and scale exactly
`A.scale * B.scale`. -/
theorem C4_mul_formula (A B : TranslateScale) :
    A.mul B =
      TranslateScale.new (A.translation + A.scale * B.translation)
        (A.scale * B.scale) :=
  rfl

/-- Claim C5: composition is associative with point application, exactly:
for all transforms `A`, `B` and points `p`, `(A * B) * p = A * (B * p)`
(exact in this embedding's arithmetic, hence also within tolerance). -/
theorem C5_mul_point_assoc (A B : TranslateScale) (p : Point) :
    (A.mul B).mulPoint p = A.mulPoint (B.mulPoint p) := by
  apply Point.ext_xy <;>
    · simp [TranslateScale.mul, TranslateScale.mulPoint]
      ring

/-- Claim C6: scalar multiplication is deliberately asymmetric: `k * T` has
translation `T.translation * k` and scale `T.scale * k`, while `T * k`
keeps `T.translation` unchanged and has scale `T.scale * k`. -/
theorem C6_scalar_asymmetry (k : ℚ) (T : TranslateScale) :
    TranslateScale.scalarMulLeft k T =
        TranslateScale.new (T.translation * k) (T.scale * k) ∧
      T.mulScalar k = TranslateScale.new T.translation (T.scale * k) :=
  ⟨rfl, rfl⟩

/-- Claim C7: vector addition/subtraction touch only the translation:
`T + v` has translation `T.translation + v` and unchanged scale, `v + T`
equals `T + v`, and `T - v` has translation `T.translation - v` with
unchanged scale. -/
theorem C7_vector_add_sub (T : TranslateScale) (v : Vec2) :
    T.addVec v = TranslateScale.new (T.translation + v) T.scale ∧
      Vec2.addTranslateScale v T = T.addVec v ∧
      T.subVec v = TranslateScale.new (T.translation - v) T.scale :=
  ⟨rfl, rfl, rfl⟩

/-- Claim C8: the default-constructed transform equals
`new(zero_vector, 1)` and applying it to any point returns the point
unchanged (exactly, hence within tolerance). -/
theorem C8_default_identity (p : Point) :
    TranslateScale.default = TranslateScale.new Vec2.ZERO 1 ∧
    TranslateScale.default.mulPoint p = p ∧
    nearPoint (TranslateScale.default.mulPoint p) p := by
  have h : TranslateScale.default.mulPoint p = p := by
    apply Point.ext_xy <;>
      simp [TranslateScale.default, TranslateScale.scale_only, TranslateScale.new,
        TranslateScale.mulPoint, Vec2.ZERO]
  exact ⟨rfl, h, nearPoint_of_eq _ _ h⟩

/-- Claim C9: transforming a circle maps the center through the transform
and multiplies the radius by the scale exactly, with no absolute value or
clamping; in particular a negative scale and positive radius yield a
negative radius. -/
theorem C9_mul_circle (T : TranslateScale) (c : Circle) :
    T.mulCircle c = Circle.new (T.mulPoint c.center) (T.scale * c.radius) ∧
    (T.scale < 0 → 0 < c.radius → (T.mulCircle c).radius < 0) := by
  refine ⟨rfl, fun hs hr => ?_⟩
  simpa [TranslateScale.mulCircle, Circle.new] using mul_neg_of_neg_of_pos hs hr

theorem C9_mul_circle_witness :
    ((TranslateScale.new ⟨1, 2⟩ (-2)).mulCircle (Circle.new ⟨0, 0⟩ 3)).radius < 0 :=
  (C9_mul_circle (TranslateScale.new ⟨1, 2⟩ (-2)) (Circle.new ⟨0, 0⟩ 3)).2
    (by decide) (by decide)

/-- Claim C10: for every transform `T` and vector `v`, `T + v` is exactly
equal, field by field, to `translate(v) * T`: the translation becomes
`v + T.translation` and the scale stays `T.scale`. -/
theorem C10_add_vec_eq_translate_mul (T : TranslateScale) (v : Vec2) :
    T.addVec v = (TranslateScale.translate v).mul T := by
  simp only [TranslateScale.addVec, TranslateScale.translate, TranslateScale.new,
    TranslateScale.mul, TranslateScale.mk.injEq]
  constructor
  · apply Vec2.ext_comp <;>
      · simp
        ring
  · ring

end Kurbo
